import Mathlib

namespace InspireConferences

/-- JSON-like values as manipulated by the conference builder.
`Value.none` stands for Python `None`. -/
inductive Value where
  | none : Value
  | bool : Bool → Value
  | int  : Int → Value
  | str  : String → Value
  | list : List Value → Value
  | dict : List (String × Value) → Value

mutual
/-- Python structural equality (`==`) on values: dict comparison is
key-order-independent, `True == 1` holds (bools are ints in Python). -/
def pyEq : Value → Value → Bool
  | .none, .none => true
  | .bool a, .bool b => a == b
  | .bool a, .int b => (if a then (1 : Int) else 0) == b
  | .int a, .bool b => a == (if b then (1 : Int) else 0)
  | .int a, .int b => a == b
  | .str a, .str b => a == b
  | .list a, .list b => pyEqList a b
  | .dict a, .dict b => a.length == b.length && pyEqSub a b && pyEqSub b a
  | _, _ => false
termination_by a b => sizeOf a + sizeOf b
decreasing_by all_goals (simp_wf; try omega)

/-- Pointwise Python equality of two sequences. -/
def pyEqList : List Value → List Value → Bool
  | [], [] => true
  | a :: as, b :: bs => pyEq a b && pyEqList as bs
  | _, _ => false
termination_by a b => sizeOf a + sizeOf b
decreasing_by all_goals (simp_wf; try omega)

/-- Every key/value pair of the first mapping has a Python-equal
counterpart in the second. -/
def pyEqSub : List (String × Value) → List (String × Value) → Bool
  | [], _ => true
  | (k, v) :: rest, other => pyEqFind k v other && pyEqSub rest other
termination_by a b => sizeOf a + sizeOf b
decreasing_by all_goals (simp_wf; try omega)

/-- Some pair of the mapping has key `k` and a value Python-equal to `v`. -/
def pyEqFind : String → Value → List (String × Value) → Bool
  | _, _, [] => false
  | k, v, (k2, w) :: rest => (k == k2 && pyEq v w) || pyEqFind k v rest
termination_by _ v l => sizeOf v + sizeOf l
decreasing_by all_goals (simp_wf; try omega)
end

/-- A Python dict, as an insertion-ordered association list.  Python dicts
never hold duplicate keys; all dicts built below keep that property. -/
abbrev Obj := List (String × Value)

/-- Key lookup, `d[k]` / `d.get(k)`: first (only) binding wins. -/
def Obj.get : Obj → String → Option Value
  | [], _ => Option.none
  | (k1, v1) :: rest, k => if k1 == k then some v1 else Obj.get rest k

/-- Python `k in d`: key membership. -/
def Obj.hasKey (o : Obj) (k : String) : Bool :=
  (Obj.get o k).isSome

/-- Python `d[k] = v`: replaces the value of an existing key in place,
otherwise appends the new binding at the end (dict insertion order). -/
def Obj.set : Obj → String → Value → Obj
  | [], k, v => [(k, v)]
  | (k1, v1) :: rest, k, v =>
      if k1 == k then (k1, v) :: rest else (k1, v1) :: Obj.set rest k v

/-- Membership `e in xs` of a Python list (CPython compares `x == e` for each
item `x`).  Python raises `TypeError` when the container is not a sequence
(except the string/string substring case); the embedding returns `false`
there, and theorems restrict to list-shaped fields. -/
def pyMem (e : Value) : Value → Bool
  | .list xs => xs.any fun x => pyEq x e
  | _ => false

/-- Modelled from the spec: the `EMPTIES` set from `inspire_schemas.utils`
(not part of the sources at hand) — a value is empty iff it is `None`, the
empty string, an empty sequence or an empty mapping; `v in EMPTIES` uses
Python `==`, so `0` and `False` are *not* empty. -/
def isEmptyVal : Value → Bool
  | .none => true
  | .str s => s == ""
  | .list l => l.isEmpty
  | .dict l => l.isEmpty
  | _ => false

/-- Python truthiness (`if v:`): `None`, `False`, `0`, the empty string and
empty containers are falsy. -/
def truthy : Value → Bool
  | .none => false
  | .bool b => b
  | .int n => n != 0
  | .str s => s != ""
  | .list l => !l.isEmpty
  | .dict l => !l.isEmpty

/-- Modelled from the spec: the kwargs-stripping half of the
`filter_empty_parameters` decorator from `inspire_schemas.utils` (not part of
the sources at hand) — empty keyword arguments are removed before the method
body runs. -/
def stripEmpty (kwargs : Obj) : Obj :=
  kwargs.filter fun p => !isEmptyVal p.2

/-- Modelled from the spec: the no-op half of the `filter_empty_parameters`
decorator — the wrapped method body only runs when some meaningful
(non-`source`) argument is non-empty.  All arguments are modelled as keyword
arguments (they are keyword-or-positional in Python). -/
def hasMeaningful (kwargs : Obj) : Bool :=
  (stripEmpty kwargs).any fun p => p.1 != "source"

/-- An argument value as seen by a decorated method body: an empty argument
was stripped from the call, so the parameter falls back to its Python
default `None`. -/
def stripArg (v : Value) : Value :=
  if isEmptyVal v then Value.none else v

/-- The builder state: `ConferenceBuilder.record` and
`ConferenceBuilder.source` (`Value.none` when no default source is set). -/
structure Builder where
  record : Obj
  source : Value

/-- `ConferenceBuilder.__init__`: a fresh record carries the
`_collections` marker; an existing record is adopted unchanged. -/
def mkBuilder (record : Option Obj) (source : Value) : Builder :=
  match record with
  | Option.none => ⟨[("_collections", Value.list [Value.str "Conferences"])], source⟩
  | some r => ⟨r, source⟩

/-- `ConferenceBuilder._ensure_field` composed with `_ensure_list_field`:
if `field` is absent it is set to the default list (a new key is appended at
the end of the record). -/
def ensureListField (r : Obj) (field : String) (d : List Value) : Obj :=
  if Obj.hasKey r field then r else r ++ [(field, Value.list d)]

/-- The shared append-if-absent step of `_append_to`: ensure the field
exists, then append the candidate unless it is already present under Python
equality.  When the field holds a non-list value Python raises `TypeError`
(or, for string fields and string candidates, does a substring test); the
embedding leaves the record unchanged there and theorems restrict to
list-shaped fields. -/
def pushUnique (r : Obj) (field : String) (e : Value) (d : List Value) : Obj :=
  match Obj.get (ensureListField r field d) field with
  | some (Value.list xs) =>
      if xs.any fun x => pyEq x e then ensureListField r field d
      else Obj.set (ensureListField r field d) field (Value.list (xs ++ [e]))
  | _ => ensureListField r field d

/-- The `record`-reference normalization step of `_append_to`: a plain
string under the `record` key becomes `{'$ref': that_string}`. -/
def normalizeRecordRef (kwargs : Obj) : Obj :=
  match Obj.get kwargs "record" with
  | some (Value.str s) => Obj.set kwargs "record" (Value.dict [("$ref", Value.str s)])
  | _ => kwargs

/-- `ConferenceBuilder._append_to` under its `filter_empty_parameters`
decorator.  The `field` argument is always passed positionally by the
callers, so the decorated body always runs; the decorator strips the empty
keyword arguments, which the embedding applies via `stripEmpty`.  All
callers leave `default_list` at its `None` default, embedded here as the
explicit `d` argument. -/
def appendTo (b : Builder) (field : String) (element : Value) (d : List Value)
    (kwargs0 : Obj) : Builder :=
  if isEmptyVal element = false then
    { b with record := pushUnique b.record field element d }
  else if (stripEmpty kwargs0).isEmpty = false then
    { b with record :=
        pushUnique b.record field (Value.dict (normalizeRecordRef (stripEmpty kwargs0))) d }
  else b

/-- `ConferenceBuilder._sourced_dict`: the `source` key is special — a
truthy explicit source wins, else a truthy builder default, else no
`source` key is added. -/
def sourcedDict (bsource : Value) (source : Value) (kwargs : Obj) : Obj :=
  if truthy source then Obj.set kwargs "source" source
  else if truthy bsource then Obj.set kwargs "source" bsource
  else kwargs

/-- Python iteration (`for x in v`): lists yield their items, strings their
one-character substrings, dicts their keys.  Other values raise `TypeError`
in Python; the embedding yields nothing there and theorems do not rely on
that branch. -/
def pyIter : Value → List Value
  | .list l => l
  | .str s => s.toList.map fun c => Value.str c.toString
  | .dict l => l.map fun p => Value.str p.1
  | _ => []

/-- `add_private_note` (note: the record field is `_private_notes`).
Empty arguments are stripped by the decorator, so the body sees `None`
(`stripArg`); a Python call whose required argument was stripped while
another argument was meaningful raises `TypeError`, theorems restrict to
the completing calls. -/
def add_private_note (b : Builder) (value source : Value) : Builder :=
  if hasMeaningful [("value", value), ("source", source)] then
    appendTo b "_private_notes" Value.none []
      [("source", stripArg source), ("value", stripArg value)]
  else b

/-- `add_acronym`: the acronym is the `element` argument of `_append_to`. -/
def add_acronym (b : Builder) (acronym : Value) : Builder :=
  if hasMeaningful [("acronym", acronym)] then
    appendTo b "acronyms" (stripArg acronym) [] []
  else b

/-- `add_address`: all eight parameters are forwarded as keyword arguments
of `_append_to`. -/
def add_address (b : Builder) (cities country_code latitude longitude
    place_name postal_address postal_code state : Value) : Builder :=
  if hasMeaningful [("cities", cities), ("country_code", country_code),
      ("latitude", latitude), ("longitude", longitude),
      ("place_name", place_name), ("postal_address", postal_address),
      ("postal_code", postal_code), ("state", state)] then
    appendTo b "addresses" Value.none []
      [("cities", stripArg cities), ("country_code", stripArg country_code),
       ("latitude", stripArg latitude), ("longitude", stripArg longitude),
       ("place_name", stripArg place_name),
       ("postal_address", stripArg postal_address),
       ("postal_code", stripArg postal_code), ("state", stripArg state)]
  else b

/-- The candidate entry built by the (identical) bodies of `add_title` and
`add_alternative_title`: a sourced `title` dict, with `subtitle` attached
only when not `None` after stripping. -/
def titleEntry (bsource title subtitle source : Value) : Value :=
  let entry := sourcedDict bsource (stripArg source) [("title", stripArg title)]
  Value.dict (match stripArg subtitle with
    | Value.none => entry
    | sub => Obj.set entry "subtitle" sub)

/-- `add_alternative_title`: a sourced title entry, with `subtitle`
attached only when not `None` after stripping. -/
def add_alternative_title (b : Builder) (title subtitle source : Value) : Builder :=
  if hasMeaningful [("title", title), ("subtitle", subtitle), ("source", source)] then
    appendTo b "alternative_titles" (titleEntry b.source title subtitle source) [] []
  else b

/-- `set_cnum` (not decorated): writes `cnum` whenever the argument is not
`None` — even an empty string is written. -/
def set_cnum (b : Builder) (cnum : Value) : Builder :=
  match cnum with
  | Value.none => b
  | c => { b with record := Obj.set b.record "cnum" c }

/-- `add_contact`: name, email, curated_relation and record are forwarded
as keyword arguments of `_append_to` (which normalizes a string `record`
into a `$ref` object). -/
def add_contact (b : Builder) (name email curated_relation record : Value) : Builder :=
  if hasMeaningful [("name", name), ("email", email),
      ("curated_relation", curated_relation), ("record", record)] then
    appendTo b "contact_details" Value.none []
      [("name", stripArg name), ("email", stripArg email),
       ("curated_relation", stripArg curated_relation),
       ("record", stripArg record)]
  else b

/-- `add_external_system_identifier`: forwards `schema` and `value` (in
that keyword order). -/
def add_external_system_identifier (b : Builder) (value schema : Value) : Builder :=
  if hasMeaningful [("value", value), ("schema", schema)] then
    appendTo b "external_system_identifiers" Value.none []
      [("schema", stripArg schema), ("value", stripArg value)]
  else b

/-- The sourced `term` entry built per category inside
`add_inspire_categories`. -/
def categoryEntry (bsource source category : Value) : Value :=
  Value.dict (sourcedDict bsource (stripArg source) [("term", category)])

/-- `add_inspire_categories`: one sourced `term` entry per element of
`subject_terms`, each routed through `_append_to`. -/
def add_inspire_categories (b : Builder) (subject_terms source : Value) : Builder :=
  if hasMeaningful [("subject_terms", subject_terms), ("source", source)] then
    (pyIter (stripArg subject_terms)).foldl
      (fun bb category =>
        appendTo bb "inspire_categories" (categoryEntry bb.source source category) [] [])
      b
  else b

/-- The candidate entry built by `add_keyword`: a sourced `value` dict,
with `schema` attached only when not `None` after stripping. -/
def keywordEntry (bsource value schema source : Value) : Value :=
  let kd := sourcedDict bsource (stripArg source) [("value", stripArg value)]
  Value.dict (match stripArg schema with
    | Value.none => kd
    | sc => Obj.set kd "schema" sc)

/-- `add_keyword`: a sourced `value` entry, with `schema` attached only
when not `None` after stripping. -/
def add_keyword (b : Builder) (value schema source : Value) : Builder :=
  if hasMeaningful [("value", value), ("schema", schema), ("source", source)] then
    appendTo b "keywords" (keywordEntry b.source value schema source) [] []
  else b

/-- The sourced `value` entry built by `add_public_note`. -/
def noteEntry (bsource value source : Value) : Value :=
  Value.dict (sourcedDict bsource (stripArg source) [("value", stripArg value)])

/-- `add_public_note`: a sourced `value` entry appended to `public_notes`. -/
def add_public_note (b : Builder) (value source : Value) : Builder :=
  if hasMeaningful [("value", value), ("source", source)] then
    appendTo b "public_notes" (noteEntry b.source value source) [] []
  else b

/-- The candidate entry built by `add_series`: `_sourced_dict` is called
without an explicit source (so only the builder default can apply) and
`number` is attached only when truthy — `number=0` is dropped. -/
def seriesEntry (bsource name number : Value) : Value :=
  let so := sourcedDict bsource Value.none [("name", stripArg name)]
  Value.dict (if truthy (stripArg number) then Obj.set so "number" (stripArg number) else so)

/-- `add_series`: `_sourced_dict` is called without an explicit source (so
only the builder default can apply) and `number` is attached only when
truthy — `number=0` is dropped. -/
def add_series (b : Builder) (name number : Value) : Builder :=
  if hasMeaningful [("name", name), ("number", number)] then
    appendTo b "series" (seriesEntry b.source name number) [] []
  else b

/-- `add_title`: a sourced title entry, with `subtitle` attached only when
not `None` after stripping. -/
def add_title (b : Builder) (title subtitle source : Value) : Builder :=
  if hasMeaningful [("title", title), ("subtitle", subtitle), ("source", source)] then
    appendTo b "titles" (titleEntry b.source title subtitle source) [] []
  else b

/-- `_prepare_url`: `description` is attached only when truthy. -/
def prepareUrl (value description : Value) : Obj :=
  let entry := [("value", value)]
  if truthy description then Obj.set entry "description" description else entry

/-- `add_url`: the prepared url entry is the `element` of `_append_to`. -/
def add_url (b : Builder) (value description : Value) : Builder :=
  if hasMeaningful [("value", value), ("description", description)] then
    appendTo b "urls" (Value.dict (prepareUrl (stripArg value) (stripArg description))) [] []
  else b

/-- `set_closing_date` (not decorated): writes the normalized date when the
argument is not `None`.  `normalize_date` is the external date normalizer
(`inspire_utils.date`), taken as the parameter `nd`. -/
def set_closing_date (nd : String → String) (b : Builder) (date : Value) : Builder :=
  match date with
  | Value.none => b
  | Value.str s => { b with record := Obj.set b.record "closing_date" (Value.str (nd s)) }
  | d => { b with record := Obj.set b.record "closing_date" d }

/-- `set_core` (not decorated): unconditionally writes the `core` flag. -/
def set_core (b : Builder) (core : Value) : Builder :=
  { b with record := Obj.set b.record "core" core }

/-- `set_core()` with no argument: the Python parameter default is
`core=True`. -/
def set_core_default (b : Builder) : Builder :=
  set_core b (Value.bool true)

/-- `set_opening_date` (not decorated): writes the normalized date when the
argument is not `None`. -/
def set_opening_date (nd : String → String) (b : Builder) (date : Value) : Builder :=
  match date with
  | Value.none => b
  | Value.str s => { b with record := Obj.set b.record "opening_date" (Value.str (nd s)) }
  | d => { b with record := Obj.set b.record "opening_date" d }

/-- `set_short_description` (not decorated): unconditionally writes a
sourced `value` entry. -/
def set_short_description (b : Builder) (value source : Value) : Builder :=
  let sd := Value.dict (sourcedDict b.source source [("value", value)])
  { b with record := Obj.set b.record "short_description" sd }

/-! ### Dictionary lemmas -/

theorem Obj.get_set_self (o : Obj) (k : String) (v : Value) :
    Obj.get (Obj.set o k v) k = some v := by
  induction o with
  | nil => simp [Obj.set, Obj.get]
  | cons p rest ih =>
      obtain ⟨k1, v1⟩ := p
      by_cases h : k1 = k
      · simp [Obj.set, Obj.get, h]
      · simp [Obj.set, Obj.get, h, ih]

theorem Obj.get_set_ne (o : Obj) (k k' : String) (v : Value) (h : k' ≠ k) :
    Obj.get (Obj.set o k v) k' = Obj.get o k' := by
  induction o with
  | nil => simp [Obj.set, Obj.get, Ne.symm h]
  | cons p rest ih =>
      obtain ⟨k1, v1⟩ := p
      by_cases h1 : k1 = k
      · subst h1
        simp [Obj.set, Obj.get, Ne.symm h]
      · simp [Obj.set, Obj.get, h1, ih]

theorem Obj.get_append_none (o l : Obj) (k : String) (h : Obj.get o k = Option.none) :
    Obj.get (o ++ l) k = Obj.get l k := by
  induction o with
  | nil => simp
  | cons p rest ih =>
      obtain ⟨k1, v1⟩ := p
      by_cases h1 : k1 = k
      · simp [Obj.get, h1] at h
      · simp [Obj.get, h1] at h ⊢
        exact ih h

theorem Obj.get_append_some (o l : Obj) (k : String) (v : Value)
    (h : Obj.get o k = some v) : Obj.get (o ++ l) k = some v := by
  induction o with
  | nil => simp [Obj.get] at h
  | cons p rest ih =>
      obtain ⟨k1, v1⟩ := p
      by_cases h1 : k1 = k
      · simp [Obj.get, h1] at h ⊢
        exact h
      · simp [Obj.get, h1] at h ⊢
        exact ih h

theorem Obj.get_single_self (k : String) (v : Value) :
    Obj.get [(k, v)] k = some v := by
  simp [Obj.get]

theorem Obj.get_single_ne (k k' : String) (v : Value) (h : k' ≠ k) :
    Obj.get [(k, v)] k' = Option.none := by
  simp [Obj.get, Ne.symm h]

theorem Obj.set_append_absent (o : Obj) (k : String) (v w : Value)
    (h : Obj.get o k = Option.none) :
    Obj.set (o ++ [(k, w)]) k v = o ++ [(k, v)] := by
  induction o with
  | nil => simp [Obj.set]
  | cons p rest ih =>
      obtain ⟨k1, v1⟩ := p
      by_cases h1 : k1 = k
      · simp [Obj.get, h1] at h
      · simp [Obj.get, h1] at h
        simp [Obj.set, h1, ih h]

theorem Obj.hasKey_set_of (o : Obj) (k k' : String) (v : Value)
    (h : Obj.hasKey o k' = true) : Obj.hasKey (Obj.set o k v) k' = true := by
  by_cases hk : k' = k
  · subst hk
    simp [Obj.hasKey, Obj.get_set_self]
  · simpa [Obj.hasKey, Obj.get_set_ne o k k' v hk] using h

theorem Obj.hasKey_append_of (o l : Obj) (k : String)
    (h : Obj.hasKey o k = true) : Obj.hasKey (o ++ l) k = true := by
  simp only [Obj.hasKey, Option.isSome_iff_exists] at h ⊢
  obtain ⟨v, hv⟩ := h
  exact ⟨v, Obj.get_append_some o l k v hv⟩

/-! ### Reflexivity of Python equality -/

theorem pyEqFind_of_mem {k : String} {v : Value} {l : List (String × Value)}
    (h : (k, v) ∈ l) (hv : pyEq v v = true) : pyEqFind k v l = true := by
  induction l with
  | nil => cases h
  | cons p rest ih =>
      obtain ⟨k2, w⟩ := p
      rcases List.mem_cons.mp h with h | h
      · cases h
        simp [pyEqFind, hv]
      · simp [pyEqFind, ih h]

theorem pyEqSub_of_sub {l' l : List (String × Value)}
    (hrefl : ∀ p ∈ l', pyEq p.2 p.2 = true) (hsub : ∀ p ∈ l', p ∈ l) :
    pyEqSub l' l = true := by
  induction l' with
  | nil => simp [pyEqSub]
  | cons p rest ih =>
      obtain ⟨k, v⟩ := p
      have h1 : pyEqFind k v l = true :=
        pyEqFind_of_mem (hsub _ (List.mem_cons_self _ _))
          (hrefl _ (List.mem_cons_self _ _))
      have h2 : pyEqSub rest l = true :=
        ih (fun q hq => hrefl q (List.mem_cons_of_mem _ hq))
          (fun q hq => hsub q (List.mem_cons_of_mem _ hq))
      simp [pyEqSub, h1, h2]

theorem pyEqList_refl_of (l : List Value) (h : ∀ x ∈ l, pyEq x x = true) :
    pyEqList l l = true := by
  induction l with
  | nil => simp [pyEqList]
  | cons x rest ih =>
      simp [pyEqList, h x (List.mem_cons_self _ _),
        ih (fun y hy => h y (List.mem_cons_of_mem _ hy))]

theorem pyEq_refl_aux : ∀ (n : Nat) (v : Value), sizeOf v ≤ n → pyEq v v = true := by
  intro n
  induction n with
  | zero =>
      intro v h
      exact absurd h (by cases v <;> simp)
  | succ n ih =>
      intro v h
      cases v with
      | none => rw [pyEq]
      | bool b => rw [pyEq]; simp
      | int i => rw [pyEq]; simp
      | str s => rw [pyEq]; simp
      | list l =>
          rw [pyEq]
          refine pyEqList_refl_of l (fun x hx => ih x ?_)
          have h1 : sizeOf x < sizeOf l := List.sizeOf_lt_of_mem hx
          have h2 : sizeOf (Value.list l) = 1 + sizeOf l := by simp
          omega
      | dict l =>
          rw [pyEq]
          have hr : ∀ p ∈ l, pyEq p.2 p.2 = true := by
            intro p hp
            refine ih p.2 ?_
            have h1 : sizeOf p < sizeOf l := List.sizeOf_lt_of_mem hp
            have h2 : sizeOf p.2 < sizeOf p := by
              obtain ⟨a, c⟩ := p
              simp only [Prod.mk.sizeOf_spec]
              omega
            have h3 : sizeOf (Value.dict l) = 1 + sizeOf l := by simp
            omega
          simp [pyEqSub_of_sub hr (fun q hq => hq)]

theorem pyEq_refl (v : Value) : pyEq v v = true :=
  pyEq_refl_aux (sizeOf v) v (Nat.le_refl _)

/-! ### Behaviour of the append primitive -/

/-- A record field is in an appendable state: absent, or holding a list.
Every state the builder itself produces satisfies this for its repeatable
fields; on other states Python raises (see `pushUnique`). -/
def fieldOk (r : Obj) (f : String) : Bool :=
  match Obj.get r f with
  | Option.none => true
  | some (Value.list _) => true
  | _ => false

theorem pushUnique_absent (r : Obj) (f : String) (e : Value) (d : List Value)
    (h : Obj.get r f = Option.none) :
    pushUnique r f e d =
      if d.any (fun x => pyEq x e) then r ++ [(f, Value.list d)]
      else r ++ [(f, Value.list (d ++ [e]))] := by
  have hk : Obj.hasKey r f = false := by simp [Obj.hasKey, h]
  have h1 : ensureListField r f d = r ++ [(f, Value.list d)] := by
    simp [ensureListField, hk]
  have h2 : Obj.get (r ++ [(f, Value.list d)]) f = some (Value.list d) := by
    rw [Obj.get_append_none r _ f h, Obj.get_single_self]
  unfold pushUnique
  rw [h1, h2]
  by_cases hd : d.any (fun x => pyEq x e) = true
  · simp [hd]
  · simp only [hd, Bool.false_eq_true, if_false, if_neg]
    rw [Obj.set_append_absent r f _ _ h]

theorem pushUnique_absent_nil (r : Obj) (f : String) (e : Value)
    (h : Obj.get r f = Option.none) :
    pushUnique r f e [] = r ++ [(f, Value.list [e])] := by
  rw [pushUnique_absent r f e [] h]
  simp

theorem pushUnique_present (r : Obj) (f : String) (e : Value) (d : List Value)
    (xs : List Value) (h : Obj.get r f = some (Value.list xs)) :
    pushUnique r f e d =
      if xs.any (fun x => pyEq x e) then r
      else Obj.set r f (Value.list (xs ++ [e])) := by
  have hk : Obj.hasKey r f = true := by simp [Obj.hasKey, h]
  have h1 : ensureListField r f d = r := by simp [ensureListField, hk]
  unfold pushUnique
  rw [h1, h]

theorem pushUnique_idem (r : Obj) (f : String) (e : Value) (d : List Value)
    (hfo : fieldOk r f = true) :
    pushUnique (pushUnique r f e d) f e d = pushUnique r f e d := by
  unfold fieldOk at hfo
  split at hfo
  next hget =>
    rw [pushUnique_absent r f e d hget]
    by_cases hd : d.any (fun x => pyEq x e) = true
    · simp only [hd, if_true]
      have h2 : Obj.get (r ++ [(f, Value.list d)]) f = some (Value.list d) := by
        rw [Obj.get_append_none r _ f hget, Obj.get_single_self]
      rw [pushUnique_present _ f e d d h2, if_pos hd]
    · simp only [hd, Bool.false_eq_true, if_false]
      have h2 : Obj.get (r ++ [(f, Value.list (d ++ [e]))]) f
          = some (Value.list (d ++ [e])) := by
        rw [Obj.get_append_none r _ f hget, Obj.get_single_self]
      rw [pushUnique_present _ f e d _ h2]
      have hmem : (d ++ [e]).any (fun x => pyEq x e) = true := by
        simp [List.any_append, pyEq_refl]
      rw [if_pos hmem]
  next xs hget =>
    rw [pushUnique_present r f e d xs hget]
    by_cases hx : xs.any (fun x => pyEq x e) = true
    · rw [if_pos hx, pushUnique_present r f e d xs hget, if_pos hx]
    · rw [if_neg hx]
      have h2 : Obj.get (Obj.set r f (Value.list (xs ++ [e]))) f
          = some (Value.list (xs ++ [e])) := Obj.get_set_self r f _
      rw [pushUnique_present _ f e d _ h2]
      have hmem : (xs ++ [e]).any (fun x => pyEq x e) = true := by
        simp [List.any_append, pyEq_refl]
      rw [if_pos hmem]
  next hget hne => simp at hfo

theorem hasKey_ensure (r : Obj) (f : String) (d : List Value) (k : String)
    (h : Obj.hasKey r k = true) : Obj.hasKey (ensureListField r f d) k = true := by
  unfold ensureListField
  split
  · exact h
  · exact Obj.hasKey_append_of r _ k h

theorem hasKey_pushUnique (r : Obj) (f : String) (e : Value) (d : List Value)
    (k : String) (h : Obj.hasKey r k = true) :
    Obj.hasKey (pushUnique r f e d) k = true := by
  unfold pushUnique
  have h1 := hasKey_ensure r f d k h
  split
  · split
    · exact h1
    · exact Obj.hasKey_set_of _ f k _ h1
  · exact h1

theorem appendTo_source (b : Builder) (f : String) (e : Value) (d : List Value)
    (kw : Obj) : (appendTo b f e d kw).source = b.source := by
  unfold appendTo
  split
  · rfl
  · split
    · rfl
    · rfl

theorem hasKey_appendTo (b : Builder) (f : String) (e : Value) (d : List Value)
    (kw : Obj) (k : String) (h : Obj.hasKey b.record k = true) :
    Obj.hasKey (appendTo b f e d kw).record k = true := by
  unfold appendTo
  split
  · exact hasKey_pushUnique _ f _ d k h
  · split
    · exact hasKey_pushUnique _ f _ d k h
    · exact h

theorem appendTo_idem (b : Builder) (f : String) (e : Value) (d : List Value)
    (kw : Obj) (hfo : fieldOk b.record f = true) :
    appendTo (appendTo b f e d kw) f e d kw = appendTo b f e d kw := by
  unfold appendTo
  by_cases he : isEmptyVal e = false
  · simp only [he, if_true]
    have := pushUnique_idem b.record f e d hfo
    simp [this]
  · have he' : isEmptyVal e = true := by simpa using he
    simp only [he', Bool.true_eq_false, if_false]
    by_cases hkw : (stripEmpty kw).isEmpty = false
    · simp only [hkw, if_true]
      have := pushUnique_idem b.record f (Value.dict (normalizeRecordRef (stripEmpty kw))) d hfo
      simp [this]
    · have hkw' : (stripEmpty kw).isEmpty = true := by simpa using hkw
      simp [hkw']

/-- The Python-equality membership state of a candidate in a record field. -/
def memF (r : Obj) (f : String) (e : Value) : Bool :=
  match Obj.get r f with
  | some (Value.list xs) => xs.any fun x => pyEq x e
  | _ => false

theorem fieldOk_pushUnique (r : Obj) (f : String) (e : Value) (d : List Value)
    (hfo : fieldOk r f = true) : fieldOk (pushUnique r f e d) f = true := by
  unfold fieldOk at hfo
  split at hfo
  next hget =>
    rw [pushUnique_absent r f e d hget]
    have h2 : ∀ w : Value, Obj.get (r ++ [(f, w)]) f = some w := fun w => by
      rw [Obj.get_append_none r _ f hget, Obj.get_single_self]
    split <;> simp [fieldOk, h2]
  next xs hget =>
    rw [pushUnique_present r f e d xs hget]
    split
    · simp [fieldOk, hget]
    · simp [fieldOk, Obj.get_set_self]
  next => simp at hfo

theorem fieldOk_appendTo (b : Builder) (f : String) (e : Value) (d : List Value)
    (kw : Obj) (hfo : fieldOk b.record f = true) :
    fieldOk (appendTo b f e d kw).record f = true := by
  unfold appendTo
  split
  · exact fieldOk_pushUnique _ f _ d hfo
  · split
    · exact fieldOk_pushUnique _ f _ d hfo
    · exact hfo

theorem memF_pushUnique_self (r : Obj) (f : String) (e : Value) (d : List Value)
    (hfo : fieldOk r f = true) : memF (pushUnique r f e d) f e = true := by
  unfold fieldOk at hfo
  split at hfo
  next hget =>
    rw [pushUnique_absent r f e d hget]
    have h2 : ∀ w : Value, Obj.get (r ++ [(f, w)]) f = some w := fun w => by
      rw [Obj.get_append_none r _ f hget, Obj.get_single_self]
    by_cases hd : d.any (fun x => pyEq x e) = true
    · simp [hd, memF, h2]
    · simp [hd, memF, h2, pyEq_refl]
  next xs hget =>
    rw [pushUnique_present r f e d xs hget]
    by_cases hx : xs.any (fun x => pyEq x e) = true
    · simp [hx, memF, hget]
    · simp [hx, memF, Obj.get_set_self, pyEq_refl]
  next => simp at hfo

theorem memF_pushUnique_mono (r : Obj) (f : String) (e e' : Value) (d : List Value)
    (h : memF r f e = true) : memF (pushUnique r f e' d) f e = true := by
  unfold memF at h
  split at h
  next xs hget =>
    rw [pushUnique_present r f e' d xs hget]
    split
    · simpa [memF, hget] using h
    · simp only [memF, Obj.get_set_self]
      rw [List.any_append]
      simp [h]
  next => simp at h

theorem memF_appendTo_self (b : Builder) (f : String) (e : Value)
    (hfo : fieldOk b.record f = true) (he : isEmptyVal e = false) :
    memF (appendTo b f e [] []).record f e = true := by
  unfold appendTo
  simp only [he, if_true]
  exact memF_pushUnique_self b.record f e [] hfo

theorem memF_appendTo_mono (b : Builder) (f : String) (e e' : Value)
    (h : memF b.record f e = true) :
    memF (appendTo b f e' [] []).record f e = true := by
  unfold appendTo
  split
  · exact memF_pushUnique_mono b.record f e e' [] h
  · split
    · exact memF_pushUnique_mono b.record f e _ [] h
    · exact h

theorem appendTo_noop_of_memF (b : Builder) (f : String) (e : Value)
    (h : memF b.record f e = true) (he : isEmptyVal e = false) :
    appendTo b f e [] [] = b := by
  unfold memF at h
  split at h
  next xs hget =>
    unfold appendTo
    simp only [he, if_true]
    have hk : Obj.hasKey b.record f = true := by simp [Obj.hasKey, hget]
    rw [pushUnique_present b.record f e [] xs hget, if_pos h]
  next => simp at h

/-! ### An idempotence template for the add operations -/

theorem op_idem_template (f : String) (c : Bool) (E : Value → Value) (kw : Obj)
    (op : Builder → Builder)
    (hop : ∀ b, op b = if c then appendTo b f (E b.source) [] kw else b)
    (b : Builder) (hfo : fieldOk b.record f = true) : op (op b) = op b := by
  by_cases hc : c = true
  · rw [hop b, if_pos hc, hop _, if_pos hc, appendTo_source,
      appendTo_idem _ f _ [] kw hfo]
  · have hc' : c = false := by simpa using hc
    rw [hop b, hc', if_neg (by simp), hop b, hc', if_neg (by simp)]

/-! ### The category fold of `add_inspire_categories` -/

theorem Obj.set_ne_nil (o : Obj) (k : String) (v : Value) : Obj.set o k v ≠ [] := by
  cases o with
  | nil => simp [Obj.set]
  | cons p rest =>
      obtain ⟨k1, v1⟩ := p
      unfold Obj.set
      split <;> simp

theorem sourcedDict_ne_nil (bs s : Value) (k : String) (v : Value) (rest : Obj) :
    sourcedDict bs s ((k, v) :: rest) ≠ [] := by
  unfold sourcedDict
  split
  · exact Obj.set_ne_nil _ _ _
  · split
    · exact Obj.set_ne_nil _ _ _
    · simp

theorem categoryEntry_nonempty (bs src c : Value) :
    isEmptyVal (categoryEntry bs src c) = false := by
  have h := sourcedDict_ne_nil bs (stripArg src) "term" c []
  unfold categoryEntry
  simp [isEmptyVal, List.isEmpty_iff, h]

theorem foldcat_source_const (f : String) (source : Value) (L : List Value)
    (b : Builder) :
    L.foldl (fun bb c => appendTo bb f (categoryEntry bb.source source c) [] []) b
  = L.foldl (fun bb c => appendTo bb f (categoryEntry b.source source c) [] []) b := by
  induction L generalizing b with
  | nil => rfl
  | cons c rest ih =>
      simp only [List.foldl_cons]
      rw [ih]
      rw [appendTo_source]

theorem foldE_source (f : String) (E : Value → Value) (L : List Value) (b : Builder) :
    (L.foldl (fun bb c => appendTo bb f (E c) [] []) b).source = b.source := by
  induction L generalizing b with
  | nil => rfl
  | cons c rest ih =>
      simp only [List.foldl_cons]
      rw [ih, appendTo_source]

theorem foldE_fieldOk (f : String) (E : Value → Value) (L : List Value) (b : Builder)
    (hfo : fieldOk b.record f = true) :
    fieldOk (L.foldl (fun bb c => appendTo bb f (E c) [] []) b).record f = true := by
  induction L generalizing b with
  | nil => exact hfo
  | cons c rest ih =>
      simp only [List.foldl_cons]
      exact ih _ (fieldOk_appendTo _ _ _ _ _ hfo)

theorem foldE_mem_mono (f : String) (E : Value → Value) (L : List Value) (b : Builder)
    (e : Value) (h : memF b.record f e = true) :
    memF (L.foldl (fun bb c => appendTo bb f (E c) [] []) b).record f e = true := by
  induction L generalizing b with
  | nil => exact h
  | cons c rest ih =>
      simp only [List.foldl_cons]
      exact ih _ (memF_appendTo_mono _ _ _ _ h)

theorem foldE_mem_all (f : String) (E : Value → Value)
    (hE : ∀ c, isEmptyVal (E c) = false) (L : List Value) (b : Builder)
    (hfo : fieldOk b.record f = true) :
    ∀ c ∈ L, memF (L.foldl (fun bb c => appendTo bb f (E c) [] []) b).record f (E c) = true := by
  induction L generalizing b with
  | nil =>
      intro c hc
      cases hc
  | cons c0 rest ih =>
      intro c hc
      rcases List.mem_cons.mp hc with hc | hc
      · subst hc
        simp only [List.foldl_cons]
        exact foldE_mem_mono f E rest _ _ (memF_appendTo_self b f (E c) hfo (hE c))
      · simp only [List.foldl_cons]
        exact ih _ (fieldOk_appendTo _ _ _ _ _ hfo) c hc

theorem foldE_noop (f : String) (E : Value → Value)
    (hE : ∀ c, isEmptyVal (E c) = false) (L : List Value) (b : Builder)
    (h : ∀ c ∈ L, memF b.record f (E c) = true) :
    L.foldl (fun bb c => appendTo bb f (E c) [] []) b = b := by
  induction L generalizing b with
  | nil => rfl
  | cons c0 rest ih =>
      simp only [List.foldl_cons]
      rw [appendTo_noop_of_memF b f (E c0) (h c0 (List.mem_cons_self _ _)) (hE c0)]
      exact ih b (fun c hc => h c (List.mem_cons_of_mem _ hc))

theorem foldE_idem (f : String) (E : Value → Value)
    (hE : ∀ c, isEmptyVal (E c) = false) (L : List Value) (b : Builder)
    (hfo : fieldOk b.record f = true) :
    L.foldl (fun bb c => appendTo bb f (E c) [] [])
      (L.foldl (fun bb c => appendTo bb f (E c) [] []) b)
  = L.foldl (fun bb c => appendTo bb f (E c) [] []) b :=
  foldE_noop f E hE L _ (foldE_mem_all f E hE L b hfo)

theorem add_inspire_categories_idem (b : Builder) (terms source : Value)
    (hfo : fieldOk b.record "inspire_categories" = true) :
    add_inspire_categories (add_inspire_categories b terms source) terms source
      = add_inspire_categories b terms source := by
  by_cases hc : hasMeaningful [("subject_terms", terms), ("source", source)] = true
  · unfold add_inspire_categories
    rw [if_pos hc, if_pos hc]
    rw [foldcat_source_const, foldcat_source_const, foldE_source,
      foldE_idem "inspire_categories" _ (fun c => categoryEntry_nonempty b.source source c)
        _ b hfo]
  · have hc' : hasMeaningful [("subject_terms", terms), ("source", source)] = false := by
      simpa using hc
    unfold add_inspire_categories
    rw [hc']
    simp

/-! ### Claim C1 -/

/-- C1: for every repeatable field and every `add_*` operation, calling the
operation a second time with arguments identical to a previous call leaves
the builder (and hence the field's sequence) unchanged: the candidate entry
is appended only if it is not already structurally present, so the state
after the second call equals the state after the first call.  Each
conjunct assumes the target field is absent or list-shaped (on other
states Python raises instead of completing). -/
theorem spec_C1_idempotent_dedup :
    (∀ b v s, fieldOk b.record "_private_notes" = true →
      add_private_note (add_private_note b v s) v s = add_private_note b v s)
  ∧ (∀ b a, fieldOk b.record "acronyms" = true →
      add_acronym (add_acronym b a) a = add_acronym b a)
  ∧ (∀ b c1 c2 c3 c4 c5 c6 c7 c8, fieldOk b.record "addresses" = true →
      add_address (add_address b c1 c2 c3 c4 c5 c6 c7 c8) c1 c2 c3 c4 c5 c6 c7 c8
        = add_address b c1 c2 c3 c4 c5 c6 c7 c8)
  ∧ (∀ b t st s, fieldOk b.record "alternative_titles" = true →
      add_alternative_title (add_alternative_title b t st s) t st s
        = add_alternative_title b t st s)
  ∧ (∀ b n e c r, fieldOk b.record "contact_details" = true →
      add_contact (add_contact b n e c r) n e c r = add_contact b n e c r)
  ∧ (∀ b v s, fieldOk b.record "external_system_identifiers" = true →
      add_external_system_identifier (add_external_system_identifier b v s) v s
        = add_external_system_identifier b v s)
  ∧ (∀ b terms s, fieldOk b.record "inspire_categories" = true →
      add_inspire_categories (add_inspire_categories b terms s) terms s
        = add_inspire_categories b terms s)
  ∧ (∀ b v sc s, fieldOk b.record "keywords" = true →
      add_keyword (add_keyword b v sc s) v sc s = add_keyword b v sc s)
  ∧ (∀ b v s, fieldOk b.record "public_notes" = true →
      add_public_note (add_public_note b v s) v s = add_public_note b v s)
  ∧ (∀ b n num, fieldOk b.record "series" = true →
      add_series (add_series b n num) n num = add_series b n num)
  ∧ (∀ b t st s, fieldOk b.record "titles" = true →
      add_title (add_title b t st s) t st s = add_title b t st s)
  ∧ (∀ b v d, fieldOk b.record "urls" = true →
      add_url (add_url b v d) v d = add_url b v d) := by
  refine ⟨?_, ?_, ?_, ?_, ?_, ?_, ?_, ?_, ?_, ?_, ?_, ?_⟩
  · intro b v s h
    exact op_idem_template "_private_notes"
      (hasMeaningful [("value", v), ("source", s)]) (fun _ => Value.none)
      [("source", stripArg s), ("value", stripArg v)]
      (fun b => add_private_note b v s) (fun b => rfl) b h
  · intro b a h
    exact op_idem_template "acronyms" (hasMeaningful [("acronym", a)])
      (fun _ => stripArg a) [] (fun b => add_acronym b a) (fun b => rfl) b h
  · intro b c1 c2 c3 c4 c5 c6 c7 c8 h
    exact op_idem_template "addresses"
      (hasMeaningful [("cities", c1), ("country_code", c2), ("latitude", c3),
        ("longitude", c4), ("place_name", c5), ("postal_address", c6),
        ("postal_code", c7), ("state", c8)])
      (fun _ => Value.none)
      [("cities", stripArg c1), ("country_code", stripArg c2),
       ("latitude", stripArg c3), ("longitude", stripArg c4),
       ("place_name", stripArg c5), ("postal_address", stripArg c6),
       ("postal_code", stripArg c7), ("state", stripArg c8)]
      (fun b => add_address b c1 c2 c3 c4 c5 c6 c7 c8) (fun b => rfl) b h
  · intro b t st s h
    exact op_idem_template "alternative_titles"
      (hasMeaningful [("title", t), ("subtitle", st), ("source", s)])
      (fun src => titleEntry src t st s) []
      (fun b => add_alternative_title b t st s) (fun b => rfl) b h
  · intro b n e c r h
    exact op_idem_template "contact_details"
      (hasMeaningful [("name", n), ("email", e), ("curated_relation", c), ("record", r)])
      (fun _ => Value.none)
      [("name", stripArg n), ("email", stripArg e),
       ("curated_relation", stripArg c), ("record", stripArg r)]
      (fun b => add_contact b n e c r) (fun b => rfl) b h
  · intro b v s h
    exact op_idem_template "external_system_identifiers"
      (hasMeaningful [("value", v), ("schema", s)]) (fun _ => Value.none)
      [("schema", stripArg s), ("value", stripArg v)]
      (fun b => add_external_system_identifier b v s) (fun b => rfl) b h
  · intro b terms s h
    exact add_inspire_categories_idem b terms s h
  · intro b v sc s h
    exact op_idem_template "keywords"
      (hasMeaningful [("value", v), ("schema", sc), ("source", s)])
      (fun src => keywordEntry src v sc s) []
      (fun b => add_keyword b v sc s) (fun b => rfl) b h
  · intro b v s h
    exact op_idem_template "public_notes"
      (hasMeaningful [("value", v), ("source", s)])
      (fun src => noteEntry src v s) []
      (fun b => add_public_note b v s) (fun b => rfl) b h
  · intro b n num h
    exact op_idem_template "series"
      (hasMeaningful [("name", n), ("number", num)])
      (fun src => seriesEntry src n num) []
      (fun b => add_series b n num) (fun b => rfl) b h
  · intro b t st s h
    exact op_idem_template "titles"
      (hasMeaningful [("title", t), ("subtitle", st), ("source", s)])
      (fun src => titleEntry src t st s) []
      (fun b => add_title b t st s) (fun b => rfl) b h
  · intro b v d h
    exact op_idem_template "urls"
      (hasMeaningful [("value", v), ("description", d)])
      (fun _ => Value.dict (prepareUrl (stripArg v) (stripArg d))) []
      (fun b => add_url b v d) (fun b => rfl) b h

/-- Witness for C1: adding the same title twice on a fresh builder is the
same as adding it once. -/
theorem spec_C1_witness :
    add_title (add_title (mkBuilder Option.none Value.none)
        (Value.str "A") Value.none Value.none) (Value.str "A") Value.none Value.none
      = add_title (mkBuilder Option.none Value.none)
        (Value.str "A") Value.none Value.none :=
  spec_C1_idempotent_dedup.2.2.2.2.2.2.2.2.2.2.1
    (mkBuilder Option.none Value.none) (Value.str "A") Value.none Value.none (by rfl)

/-! ### Claim C2 -/

theorem stripEmpty_all_empty (l : Obj) (h : ∀ p ∈ l, isEmptyVal p.2 = true) :
    stripEmpty l = [] := by
  unfold stripEmpty
  induction l with
  | nil => rfl
  | cons p rest ih =>
      rw [List.filter_cons]
      simp only [h p (List.mem_cons_self _ _)]
      exact ih (fun q hq => h q (List.mem_cons_of_mem _ hq))

theorem hasMeaningful_all_empty (l : Obj) (h : ∀ p ∈ l, isEmptyVal p.2 = true) :
    hasMeaningful l = false := by
  unfold hasMeaningful
  rw [stripEmpty_all_empty l h]
  rfl

/-- C2: every `add_*` operation invoked with all of its arguments `None` or
empty (the EMPTIES shapes: `None`, empty string, empty sequence, empty
mapping) leaves the builder — record included — completely unchanged. -/
theorem spec_C2_empty_call_noop :
    (∀ b v s, isEmptyVal v = true → isEmptyVal s = true →
      add_private_note b v s = b)
  ∧ (∀ b a, isEmptyVal a = true → add_acronym b a = b)
  ∧ (∀ b c1 c2 c3 c4 c5 c6 c7 c8,
      isEmptyVal c1 = true → isEmptyVal c2 = true → isEmptyVal c3 = true →
      isEmptyVal c4 = true → isEmptyVal c5 = true → isEmptyVal c6 = true →
      isEmptyVal c7 = true → isEmptyVal c8 = true →
      add_address b c1 c2 c3 c4 c5 c6 c7 c8 = b)
  ∧ (∀ b t st s, isEmptyVal t = true → isEmptyVal st = true → isEmptyVal s = true →
      add_alternative_title b t st s = b)
  ∧ (∀ b n e c r, isEmptyVal n = true → isEmptyVal e = true →
      isEmptyVal c = true → isEmptyVal r = true → add_contact b n e c r = b)
  ∧ (∀ b v s, isEmptyVal v = true → isEmptyVal s = true →
      add_external_system_identifier b v s = b)
  ∧ (∀ b terms s, isEmptyVal terms = true → isEmptyVal s = true →
      add_inspire_categories b terms s = b)
  ∧ (∀ b v sc s, isEmptyVal v = true → isEmptyVal sc = true → isEmptyVal s = true →
      add_keyword b v sc s = b)
  ∧ (∀ b v s, isEmptyVal v = true → isEmptyVal s = true → add_public_note b v s = b)
  ∧ (∀ b n num, isEmptyVal n = true → isEmptyVal num = true → add_series b n num = b)
  ∧ (∀ b t st s, isEmptyVal t = true → isEmptyVal st = true → isEmptyVal s = true →
      add_title b t st s = b)
  ∧ (∀ b v d, isEmptyVal v = true → isEmptyVal d = true → add_url b v d = b) := by
  refine ⟨?_, ?_, ?_, ?_, ?_, ?_, ?_, ?_, ?_, ?_, ?_, ?_⟩
  · intro b v s hv hs
    have hc := hasMeaningful_all_empty [("value", v), ("source", s)] (by simp [hv, hs])
    simp [add_private_note, hc]
  · intro b a ha
    have hc := hasMeaningful_all_empty [("acronym", a)] (by simp [ha])
    simp [add_acronym, hc]
  · intro b c1 c2 c3 c4 c5 c6 c7 c8 h1 h2 h3 h4 h5 h6 h7 h8
    have hc := hasMeaningful_all_empty
      [("cities", c1), ("country_code", c2), ("latitude", c3), ("longitude", c4),
       ("place_name", c5), ("postal_address", c6), ("postal_code", c7), ("state", c8)]
      (by simp [h1, h2, h3, h4, h5, h6, h7, h8])
    simp [add_address, hc]
  · intro b t st s ht hst hs
    have hc := hasMeaningful_all_empty [("title", t), ("subtitle", st), ("source", s)]
      (by simp [ht, hst, hs])
    simp [add_alternative_title, hc]
  · intro b n e c r hn he hcrel hr
    have hc := hasMeaningful_all_empty
      [("name", n), ("email", e), ("curated_relation", c), ("record", r)]
      (by simp [hn, he, hcrel, hr])
    simp [add_contact, hc]
  · intro b v s hv hs
    have hc := hasMeaningful_all_empty [("value", v), ("schema", s)] (by simp [hv, hs])
    simp [add_external_system_identifier, hc]
  · intro b terms s ht hs
    have hc := hasMeaningful_all_empty [("subject_terms", terms), ("source", s)]
      (by simp [ht, hs])
    simp [add_inspire_categories, hc]
  · intro b v sc s hv hsc hs
    have hc := hasMeaningful_all_empty [("value", v), ("schema", sc), ("source", s)]
      (by simp [hv, hsc, hs])
    simp [add_keyword, hc]
  · intro b v s hv hs
    have hc := hasMeaningful_all_empty [("value", v), ("source", s)] (by simp [hv, hs])
    simp [add_public_note, hc]
  · intro b n num hn hnum
    have hc := hasMeaningful_all_empty [("name", n), ("number", num)] (by simp [hn, hnum])
    simp [add_series, hc]
  · intro b t st s ht hst hs
    have hc := hasMeaningful_all_empty [("title", t), ("subtitle", st), ("source", s)]
      (by simp [ht, hst, hs])
    simp [add_title, hc]
  · intro b v d hv hd
    have hc := hasMeaningful_all_empty [("value", v), ("description", d)] (by simp [hv, hd])
    simp [add_url, hc]

/-- Witness for C2: an all-empty `add_contact` call on a fresh builder
changes nothing. -/
theorem spec_C2_witness :
    add_contact (mkBuilder Option.none Value.none)
        Value.none (Value.str "") (Value.list []) (Value.dict [])
      = mkBuilder Option.none Value.none :=
  spec_C2_empty_call_noop.2.2.2.2.1 (mkBuilder Option.none Value.none)
    Value.none (Value.str "") (Value.list []) (Value.dict [])
    (by rfl) (by rfl) (by rfl) (by rfl)

/-! ### Claim C3 -/

/-- C3: source precedence for sourced entries.  A truthy call-site source
becomes the entry's `source` value regardless of the builder default; with
no call-site source a truthy builder default is used; with neither, the
entry carries no `source` key (payloads built by the callers never contain
one themselves).  The final conjuncts exercise the precedence through
`add_title` with default source `submitter` and call-site source `arxiv`,
as the spec's example does. -/
theorem spec_C3_source_precedence :
    (∀ bsrc s payload, truthy s = true →
      Obj.get (sourcedDict bsrc s payload) "source" = some s)
  ∧ (∀ bsrc s payload, truthy s = false → truthy bsrc = true →
      Obj.get (sourcedDict bsrc s payload) "source" = some bsrc)
  ∧ (∀ bsrc s payload, truthy s = false → truthy bsrc = false →
      Obj.hasKey payload "source" = false →
      Obj.hasKey (sourcedDict bsrc s payload) "source" = false)
  ∧ (Obj.get (add_title (mkBuilder Option.none (Value.str "submitter"))
        (Value.str "T") Value.none (Value.str "arxiv")).record "titles"
      = some (Value.list [Value.dict
          [("title", Value.str "T"), ("source", Value.str "arxiv")]]))
  ∧ (Obj.get (add_title (mkBuilder Option.none (Value.str "submitter"))
        (Value.str "T") Value.none Value.none).record "titles"
      = some (Value.list [Value.dict
          [("title", Value.str "T"), ("source", Value.str "submitter")]]))
  ∧ (Obj.get (add_title (mkBuilder Option.none Value.none)
        (Value.str "T") Value.none Value.none).record "titles"
      = some (Value.list [Value.dict [("title", Value.str "T")]])) := by
  refine ⟨?_, ?_, ?_, by rfl, by rfl, by rfl⟩
  · intro bsrc s payload hs
    unfold sourcedDict
    rw [if_pos hs, Obj.get_set_self]
  · intro bsrc s payload hs hb
    unfold sourcedDict
    rw [if_neg (by simp [hs]), if_pos hb, Obj.get_set_self]
  · intro bsrc s payload hs hb hp
    unfold sourcedDict
    rw [if_neg (by simp [hs]), if_neg (by simp [hb])]
    exact hp

/-- Witness for C3: the builder default is overridden by a call-site
source, applies when no call-site source is given, and is absent when
neither is given. -/
theorem spec_C3_witness :
    Obj.get (sourcedDict (Value.str "submitter") (Value.str "arxiv")
        [("title", Value.str "T")]) "source" = some (Value.str "arxiv")
  ∧ Obj.get (sourcedDict (Value.str "submitter") Value.none
        [("title", Value.str "T")]) "source" = some (Value.str "submitter")
  ∧ Obj.hasKey (sourcedDict Value.none Value.none
        [("title", Value.str "T")]) "source" = false :=
  ⟨spec_C3_source_precedence.1 (Value.str "submitter") (Value.str "arxiv")
      [("title", Value.str "T")] (by rfl),
   spec_C3_source_precedence.2.1 (Value.str "submitter") Value.none
      [("title", Value.str "T")] (by rfl) (by rfl),
   spec_C3_source_precedence.2.2.1 Value.none Value.none
      [("title", Value.str "T")] (by rfl) (by rfl) (by rfl)⟩

/-! ### Claim C4 -/

theorem hasMeaningful_of_mem {p : String × Value} {l : Obj} (hp : p ∈ l)
    (hemp : isEmptyVal p.2 = false) (hsrc : p.1 ≠ "source") :
    hasMeaningful l = true := by
  unfold hasMeaningful
  rw [List.any_eq_true]
  refine ⟨p, List.mem_filter.mpr ⟨hp, by simp [hemp]⟩, by simp [hsrc]⟩

theorem stripEmpty_nonempty_of {p : String × Value} {l : Obj} (hp : p ∈ l)
    (hemp : isEmptyVal p.2 = false) : (stripEmpty l).isEmpty = false := by
  have hp' : p ∈ stripEmpty l := List.mem_filter.mpr ⟨hp, by simp [hemp]⟩
  cases hE : (stripEmpty l).isEmpty with
  | false => rfl
  | true =>
      rw [List.isEmpty_iff] at hE
      rw [hE] at hp'
      cases hp'

theorem Obj.get_filter_last (l : Obj) (k : String) (v : Value)
    (p : String × Value → Bool) (hl : ∀ q ∈ l, q.1 ≠ k) (hv : p (k, v) = true) :
    Obj.get ((l ++ [(k, v)]).filter p) k = some v := by
  induction l with
  | nil => simp [List.filter, hv, Obj.get]
  | cons q rest ih =>
      obtain ⟨k1, v1⟩ := q
      have hk1 : k1 ≠ k := hl _ (List.mem_cons_self _ _)
      have ih' := ih (fun q hq => hl q (List.mem_cons_of_mem _ hq))
      rw [List.cons_append, List.filter_cons]
      by_cases hq : p (k1, v1) = true
      · simp only [hq, if_true]
        simpa [Obj.get, hk1] using ih'
      · simp only [hq, Bool.false_eq_true, if_false]
        exact ih'

/-- The keyword-argument list that `add_contact` forwards to `_append_to`,
split as a prefix (whose keys are not `record`) and the final `record`
pair. -/
theorem contact_kwargs_split (n e c r : Value) :
    [("name", stripArg n), ("email", stripArg e),
     ("curated_relation", stripArg c), ("record", stripArg r)]
  = [("name", stripArg n), ("email", stripArg e),
     ("curated_relation", stripArg c)] ++ [("record", stripArg r)] := rfl

theorem get_stripEmpty_contact (n e c r : Value) (hr : isEmptyVal r = false) :
    Obj.get (stripEmpty [("name", stripArg n), ("email", stripArg e),
      ("curated_relation", stripArg c), ("record", stripArg r)]) "record"
    = some r := by
  have hra : stripArg r = r := by simp [stripArg, hr]
  unfold stripEmpty
  rw [contact_kwargs_split, hra]
  refine Obj.get_filter_last _ "record" r _ ?_ (by simp [hr])
  intro q hq
  simp only [List.mem_cons, List.not_mem_nil, or_false] at hq
  rcases hq with rfl | rfl | rfl <;> simp

/-- Counterexample to C4 as stated (which quantifies over *every* string
`s`, and says every mapping is appended unchanged): with `record=""` — and
likewise with the empty mapping `record={}` — the decorator strips the
empty argument before the body runs, so the appended contact entry carries
no `record` key at all instead of the reference shape `{'$ref': ''}` (or
the given mapping). -/
theorem spec_C4_counterexample :
    (Obj.get (add_contact (mkBuilder Option.none Value.none) (Value.str "X")
        Value.none Value.none (Value.str "")).record "contact_details"
      = some (Value.list [Value.dict [("name", Value.str "X")]]))
  ∧ Obj.hasKey [("name", Value.str "X")] "record" = false
  ∧ (Obj.get (add_contact (mkBuilder Option.none Value.none) (Value.str "X")
        Value.none Value.none (Value.dict [])).record "contact_details"
      = some (Value.list [Value.dict [("name", Value.str "X")]])) :=
  ⟨by rfl, by rfl, by rfl⟩

/-- C4, amended: `add_contact` with a **non-empty** plain-string `record`
argument appends a contact entry whose `record` value is the reference
shape `{'$ref': the_string}`; a **non-empty** mapping `record` argument is
appended unchanged (an empty string or empty mapping is stripped by the
decorator and yields an entry with no `record` key, see the
counterexample); and the spec's concrete example holds on a fresh builder.
The general parts start from a record where `contact_details` is absent
(so the appended entry is the single element of the field). -/
theorem spec_C4_contact_reference_normalization :
    (∀ b n e c (s : String), s ≠ "" →
      Obj.get b.record "contact_details" = Option.none →
      ∃ kws : Obj,
        Obj.get (add_contact b n e c (Value.str s)).record "contact_details"
          = some (Value.list [Value.dict kws])
        ∧ Obj.get kws "record" = some (Value.dict [("$ref", Value.str s)]))
  ∧ (∀ b n e c (m : List (String × Value)), m ≠ [] →
      Obj.get b.record "contact_details" = Option.none →
      ∃ kws : Obj,
        Obj.get (add_contact b n e c (Value.dict m)).record "contact_details"
          = some (Value.list [Value.dict kws])
        ∧ Obj.get kws "record" = some (Value.dict m))
  ∧ (Obj.get (add_contact (mkBuilder Option.none Value.none) (Value.str "X")
        Value.none Value.none (Value.str "/records/42")).record "contact_details"
      = some (Value.list [Value.dict [("name", Value.str "X"),
          ("record", Value.dict [("$ref", Value.str "/records/42")])]])) := by
  refine ⟨?_, ?_, by rfl⟩
  · intro b n e c s hs hfield
    have hremp : isEmptyVal (Value.str s) = false := by simp [isEmptyVal, hs]
    have hmem : (("record", Value.str s) : String × Value)
        ∈ [("name", n), ("email", e), ("curated_relation", c), ("record", Value.str s)] := by
      simp
    have hcond := hasMeaningful_of_mem hmem hremp (by simp)
    have hgetrec := get_stripEmpty_contact n e c (Value.str s) hremp
    have hnorm : normalizeRecordRef (stripEmpty [("name", stripArg n),
        ("email", stripArg e), ("curated_relation", stripArg c),
        ("record", stripArg (Value.str s))])
      = Obj.set (stripEmpty [("name", stripArg n), ("email", stripArg e),
          ("curated_relation", stripArg c), ("record", stripArg (Value.str s))])
          "record" (Value.dict [("$ref", Value.str s)]) := by
      unfold normalizeRecordRef
      rw [hgetrec]
    have hne : ((stripEmpty [("name", stripArg n), ("email", stripArg e),
        ("curated_relation", stripArg c), ("record", stripArg (Value.str s))]).isEmpty)
        = false := by
      have hra : stripArg (Value.str s) = Value.str s := by simp [stripArg, hremp]
      refine stripEmpty_nonempty_of (p := ("record", stripArg (Value.str s))) (by simp) ?_
      rw [hra]
      exact hremp
    refine ⟨normalizeRecordRef (stripEmpty [("name", stripArg n),
      ("email", stripArg e), ("curated_relation", stripArg c),
      ("record", stripArg (Value.str s))]), ?_, ?_⟩
    · unfold add_contact
      rw [if_pos hcond]
      unfold appendTo
      rw [if_neg (by simp [isEmptyVal]), if_pos hne,
        pushUnique_absent_nil _ _ _ hfield]
      show Obj.get (b.record ++ [("contact_details", _)]) _ = _
      rw [Obj.get_append_none _ _ _ hfield, Obj.get_single_self]
    · rw [hnorm, Obj.get_set_self]
  · intro b n e c m hm hfield
    have hremp : isEmptyVal (Value.dict m) = false := by
      simp [isEmptyVal, List.isEmpty_iff, hm]
    have hmem : (("record", Value.dict m) : String × Value)
        ∈ [("name", n), ("email", e), ("curated_relation", c), ("record", Value.dict m)] := by
      simp
    have hcond := hasMeaningful_of_mem hmem hremp (by simp)
    have hgetrec := get_stripEmpty_contact n e c (Value.dict m) hremp
    have hnorm : normalizeRecordRef (stripEmpty [("name", stripArg n),
        ("email", stripArg e), ("curated_relation", stripArg c),
        ("record", stripArg (Value.dict m))])
      = stripEmpty [("name", stripArg n), ("email", stripArg e),
          ("curated_relation", stripArg c), ("record", stripArg (Value.dict m))] := by
      unfold normalizeRecordRef
      rw [hgetrec]
    have hne : ((stripEmpty [("name", stripArg n), ("email", stripArg e),
        ("curated_relation", stripArg c), ("record", stripArg (Value.dict m))]).isEmpty)
        = false := by
      have hra : stripArg (Value.dict m) = Value.dict m := by simp [stripArg, hremp]
      refine stripEmpty_nonempty_of (p := ("record", stripArg (Value.dict m))) (by simp) ?_
      rw [hra]
      exact hremp
    refine ⟨normalizeRecordRef (stripEmpty [("name", stripArg n),
      ("email", stripArg e), ("curated_relation", stripArg c),
      ("record", stripArg (Value.dict m))]), ?_, ?_⟩
    · unfold add_contact
      rw [if_pos hcond]
      unfold appendTo
      rw [if_neg (by simp [isEmptyVal]), if_pos hne,
        pushUnique_absent_nil _ _ _ hfield]
      show Obj.get (b.record ++ [("contact_details", _)]) _ = _
      rw [Obj.get_append_none _ _ _ hfield, Obj.get_single_self]
    · rw [hnorm]
      exact hgetrec

/-- Witness for C4: the spec's example call on a fresh builder, through the
general string case. -/
theorem spec_C4_witness :
    ∃ kws : Obj,
      Obj.get (add_contact (mkBuilder Option.none Value.none) (Value.str "X")
          Value.none Value.none (Value.str "/records/42")).record "contact_details"
        = some (Value.list [Value.dict kws])
      ∧ Obj.get kws "record" = some (Value.dict [("$ref", Value.str "/records/42")]) :=
  spec_C4_contact_reference_normalization.1 (mkBuilder Option.none Value.none)
    (Value.str "X") Value.none Value.none "/records/42" (by decide) (by rfl)

/-! ### Claim C5 -/

/-- Counterexample to C5 as stated: a builder constructed from the existing
record `{}` adopts it unchanged, so its record does not contain the
`_collections` collection marker. -/
theorem spec_C5_counterexample :
    Obj.hasKey (mkBuilder (some []) Value.none).record "_collections" = false := by
  rfl

theorem op_preserves_key_template (f : String) (c : Bool) (E : Value → Value)
    (kw : Obj) (op : Builder → Builder)
    (hop : ∀ b, op b = if c then appendTo b f (E b.source) [] kw else b)
    (b : Builder) (k : String) (h : Obj.hasKey b.record k = true) :
    Obj.hasKey (op b).record k = true := by
  rw [hop b]
  by_cases hc : c = true
  · rw [if_pos hc]
    exact hasKey_appendTo _ _ _ _ _ k h
  · rw [if_neg (by simpa using hc)]
    exact h

theorem hasKey_fold (f : String) (G : Builder → Value → Value) (L : List Value)
    (b : Builder) (k : String) (h : Obj.hasKey b.record k = true) :
    Obj.hasKey ((L.foldl (fun bb c => appendTo bb f (G bb c) [] []) b)).record k
      = true := by
  induction L generalizing b with
  | nil => exact h
  | cons c rest ih =>
      simp only [List.foldl_cons]
      exact ih _ (hasKey_appendTo _ _ _ _ _ k h)

/-- C5, amended: a builder constructed with no initial record has exactly
`{'_collections': ['Conferences']}`; a builder constructed from an existing
record keeps the marker **when that record already contains it** (the
constructor adopts an existing record unchanged, so — contrary to the claim
as stated — a marker-less existing record stays marker-less, see the
counterexample); and every builder operation preserves the marker. -/
theorem spec_C5_collections_invariant :
    ((mkBuilder Option.none Value.none).record
        = [("_collections", Value.list [Value.str "Conferences"])])
  ∧ (∀ src, (mkBuilder Option.none src).record
        = [("_collections", Value.list [Value.str "Conferences"])])
  ∧ (∀ r src, Obj.hasKey r "_collections" = true →
      Obj.hasKey (mkBuilder (some r) src).record "_collections" = true)
  ∧ (∀ b v s, Obj.hasKey b.record "_collections" = true →
      Obj.hasKey (add_private_note b v s).record "_collections" = true)
  ∧ (∀ b a, Obj.hasKey b.record "_collections" = true →
      Obj.hasKey (add_acronym b a).record "_collections" = true)
  ∧ (∀ b c1 c2 c3 c4 c5 c6 c7 c8, Obj.hasKey b.record "_collections" = true →
      Obj.hasKey (add_address b c1 c2 c3 c4 c5 c6 c7 c8).record "_collections" = true)
  ∧ (∀ b t st s, Obj.hasKey b.record "_collections" = true →
      Obj.hasKey (add_alternative_title b t st s).record "_collections" = true)
  ∧ (∀ b c, Obj.hasKey b.record "_collections" = true →
      Obj.hasKey (set_cnum b c).record "_collections" = true)
  ∧ (∀ b n e c r, Obj.hasKey b.record "_collections" = true →
      Obj.hasKey (add_contact b n e c r).record "_collections" = true)
  ∧ (∀ b v s, Obj.hasKey b.record "_collections" = true →
      Obj.hasKey (add_external_system_identifier b v s).record "_collections" = true)
  ∧ (∀ b terms s, Obj.hasKey b.record "_collections" = true →
      Obj.hasKey (add_inspire_categories b terms s).record "_collections" = true)
  ∧ (∀ b v sc s, Obj.hasKey b.record "_collections" = true →
      Obj.hasKey (add_keyword b v sc s).record "_collections" = true)
  ∧ (∀ b v s, Obj.hasKey b.record "_collections" = true →
      Obj.hasKey (add_public_note b v s).record "_collections" = true)
  ∧ (∀ b n num, Obj.hasKey b.record "_collections" = true →
      Obj.hasKey (add_series b n num).record "_collections" = true)
  ∧ (∀ b t st s, Obj.hasKey b.record "_collections" = true →
      Obj.hasKey (add_title b t st s).record "_collections" = true)
  ∧ (∀ b v d, Obj.hasKey b.record "_collections" = true →
      Obj.hasKey (add_url b v d).record "_collections" = true)
  ∧ (∀ nd b dt, Obj.hasKey b.record "_collections" = true →
      Obj.hasKey (set_closing_date nd b dt).record "_collections" = true)
  ∧ (∀ b c, Obj.hasKey b.record "_collections" = true →
      Obj.hasKey (set_core b c).record "_collections" = true)
  ∧ (∀ nd b dt, Obj.hasKey b.record "_collections" = true →
      Obj.hasKey (set_opening_date nd b dt).record "_collections" = true)
  ∧ (∀ b v s, Obj.hasKey b.record "_collections" = true →
      Obj.hasKey (set_short_description b v s).record "_collections" = true) := by
  refine ⟨by rfl, fun src => by rfl, fun r src h => h,
    ?_, ?_, ?_, ?_, ?_, ?_, ?_, ?_, ?_, ?_, ?_, ?_, ?_, ?_, ?_, ?_, ?_⟩
  · intro b v s h
    exact op_preserves_key_template "_private_notes"
      (hasMeaningful [("value", v), ("source", s)]) (fun _ => Value.none)
      [("source", stripArg s), ("value", stripArg v)]
      (fun b => add_private_note b v s) (fun b => rfl) b _ h
  · intro b a h
    exact op_preserves_key_template "acronyms" (hasMeaningful [("acronym", a)])
      (fun _ => stripArg a) [] (fun b => add_acronym b a) (fun b => rfl) b _ h
  · intro b c1 c2 c3 c4 c5 c6 c7 c8 h
    exact op_preserves_key_template "addresses"
      (hasMeaningful [("cities", c1), ("country_code", c2), ("latitude", c3),
        ("longitude", c4), ("place_name", c5), ("postal_address", c6),
        ("postal_code", c7), ("state", c8)])
      (fun _ => Value.none)
      [("cities", stripArg c1), ("country_code", stripArg c2),
       ("latitude", stripArg c3), ("longitude", stripArg c4),
       ("place_name", stripArg c5), ("postal_address", stripArg c6),
       ("postal_code", stripArg c7), ("state", stripArg c8)]
      (fun b => add_address b c1 c2 c3 c4 c5 c6 c7 c8) (fun b => rfl) b _ h
  · intro b t st s h
    exact op_preserves_key_template "alternative_titles"
      (hasMeaningful [("title", t), ("subtitle", st), ("source", s)])
      (fun src => titleEntry src t st s) []
      (fun b => add_alternative_title b t st s) (fun b => rfl) b _ h
  · intro b c h
    unfold set_cnum
    split
    · exact h
    · exact Obj.hasKey_set_of _ _ _ _ h
  · intro b n e c r h
    exact op_preserves_key_template "contact_details"
      (hasMeaningful [("name", n), ("email", e), ("curated_relation", c), ("record", r)])
      (fun _ => Value.none)
      [("name", stripArg n), ("email", stripArg e),
       ("curated_relation", stripArg c), ("record", stripArg r)]
      (fun b => add_contact b n e c r) (fun b => rfl) b _ h
  · intro b v s h
    exact op_preserves_key_template "external_system_identifiers"
      (hasMeaningful [("value", v), ("schema", s)]) (fun _ => Value.none)
      [("schema", stripArg s), ("value", stripArg v)]
      (fun b => add_external_system_identifier b v s) (fun b => rfl) b _ h
  · intro b terms s h
    unfold add_inspire_categories
    split
    · exact hasKey_fold "inspire_categories"
        (fun bb c => categoryEntry bb.source s c) _ b _ h
    · exact h
  · intro b v sc s h
    exact op_preserves_key_template "keywords"
      (hasMeaningful [("value", v), ("schema", sc), ("source", s)])
      (fun src => keywordEntry src v sc s) []
      (fun b => add_keyword b v sc s) (fun b => rfl) b _ h
  · intro b v s h
    exact op_preserves_key_template "public_notes"
      (hasMeaningful [("value", v), ("source", s)])
      (fun src => noteEntry src v s) []
      (fun b => add_public_note b v s) (fun b => rfl) b _ h
  · intro b n num h
    exact op_preserves_key_template "series"
      (hasMeaningful [("name", n), ("number", num)])
      (fun src => seriesEntry src n num) []
      (fun b => add_series b n num) (fun b => rfl) b _ h
  · intro b t st s h
    exact op_preserves_key_template "titles"
      (hasMeaningful [("title", t), ("subtitle", st), ("source", s)])
      (fun src => titleEntry src t st s) []
      (fun b => add_title b t st s) (fun b => rfl) b _ h
  · intro b v d h
    exact op_preserves_key_template "urls"
      (hasMeaningful [("value", v), ("description", d)])
      (fun _ => Value.dict (prepareUrl (stripArg v) (stripArg d))) []
      (fun b => add_url b v d) (fun b => rfl) b _ h
  · intro nd b dt h
    unfold set_closing_date
    split
    · exact h
    · exact Obj.hasKey_set_of _ _ _ _ h
    · exact Obj.hasKey_set_of _ _ _ _ h
  · intro b c h
    exact Obj.hasKey_set_of _ _ _ _ h
  · intro nd b dt h
    unfold set_opening_date
    split
    · exact h
    · exact Obj.hasKey_set_of _ _ _ _ h
    · exact Obj.hasKey_set_of _ _ _ _ h
  · intro b v s h
    simp only [set_short_description]
    exact Obj.hasKey_set_of _ _ _ _ h

/-- Witness for C5: a builder over an existing record that carries the
marker keeps it, and an `add_title` call preserves it. -/
theorem spec_C5_witness :
    Obj.hasKey (mkBuilder
        (some [("_collections", Value.list [Value.str "Conferences"])])
        Value.none).record "_collections" = true
  ∧ Obj.hasKey (add_title (mkBuilder Option.none Value.none)
        (Value.str "A") Value.none Value.none).record "_collections" = true :=
  ⟨spec_C5_collections_invariant.2.2.1
      [("_collections", Value.list [Value.str "Conferences"])] Value.none (by rfl),
   spec_C5_collections_invariant.2.2.2.2.2.2.2.2.2.2.2.2.2.2.1
      (mkBuilder Option.none Value.none) (Value.str "A") Value.none Value.none (by rfl)⟩

/-! ### Claim C6 -/

/-- Counterexample to C6 as stated: `add_private_note` stores its entry
under the record field `_private_notes` (leading underscore); no
`private_notes` field is created. -/
theorem spec_C6_counterexample :
    Obj.hasKey (add_private_note (mkBuilder Option.none Value.none)
        (Value.str "note") Value.none).record "private_notes" = false
  ∧ Obj.get (add_private_note (mkBuilder Option.none Value.none)
        (Value.str "note") Value.none).record "_private_notes"
      = some (Value.list [Value.dict [("value", Value.str "note")]]) := by
  exact ⟨by rfl, by rfl⟩

/-- C6, amended: `add_private_note` stores its sourced note entry in the
record field named `_private_notes` (not `private_notes` as the claim
said), and `add_public_note` stores its entry in `public_notes`. -/
theorem spec_C6_note_field_names : ∀ (b : Builder) (v s : String),
    v ≠ "" → s ≠ "" →
    Obj.get b.record "_private_notes" = Option.none →
    Obj.hasKey b.record "private_notes" = false →
    Obj.get b.record "public_notes" = Option.none →
    (Obj.get (add_private_note b (Value.str v) (Value.str s)).record "_private_notes"
        = some (Value.list [Value.dict [("source", Value.str s), ("value", Value.str v)]]))
    ∧ Obj.hasKey (add_private_note b (Value.str v) (Value.str s)).record "private_notes"
        = false
    ∧ (Obj.get (add_public_note b (Value.str v) (Value.str s)).record "public_notes"
        = some (Value.list
            [Value.dict [("value", Value.str v), ("source", Value.str s)]])) := by
  intro b v s hv hs hpriv hplain hpub
  have hvne : isEmptyVal (Value.str v) = false := by simp [isEmptyVal, hv]
  have hsne : isEmptyVal (Value.str s) = false := by simp [isEmptyVal, hs]
  have hva : stripArg (Value.str v) = Value.str v := by simp [stripArg, hvne]
  have hsa : stripArg (Value.str s) = Value.str s := by simp [stripArg, hsne]
  have hcond : hasMeaningful [("value", Value.str v), ("source", Value.str s)] = true :=
    hasMeaningful_of_mem (List.mem_cons_self _ _) hvne (by simp)
  have hstrip : stripEmpty [("source", stripArg (Value.str s)),
      ("value", stripArg (Value.str v))]
      = [("source", Value.str s), ("value", Value.str v)] := by
    rw [hva, hsa]
    simp [stripEmpty, hvne, hsne]
  have hpriv' : add_private_note b (Value.str v) (Value.str s)
      = { b with record := b.record
          ++ [("_private_notes", Value.list
              [Value.dict [("source", Value.str s), ("value", Value.str v)]])] } := by
    unfold add_private_note
    rw [if_pos hcond]
    unfold appendTo
    rw [if_neg (by simp [isEmptyVal]), hstrip, if_pos (by rfl)]
    have : normalizeRecordRef [("source", Value.str s), ("value", Value.str v)]
        = [("source", Value.str s), ("value", Value.str v)] := by
      unfold normalizeRecordRef
      rw [show Obj.get [("source", Value.str s), ("value", Value.str v)] "record"
          = Option.none from by simp [Obj.get]]
    rw [this, pushUnique_absent_nil _ _ _ hpriv]
  refine ⟨?_, ?_, ?_⟩
  · rw [hpriv']
    show Obj.get (b.record ++ _) _ = _
    rw [Obj.get_append_none _ _ _ hpriv, Obj.get_single_self]
  · rw [hpriv']
    show Obj.hasKey (b.record ++ _) _ = false
    simp only [Obj.hasKey] at hplain ⊢
    rw [Obj.get_append_none _ _ _ (by simpa using hplain),
      Obj.get_single_ne _ _ _ (by decide)]
    rfl
  · have hentry : noteEntry b.source (Value.str v) (Value.str s)
        = Value.dict [("value", Value.str v), ("source", Value.str s)] := by
      unfold noteEntry sourcedDict
      rw [hva, hsa, if_pos (by simp [truthy, hs])]
      rfl
    have hcond2 := hcond
    unfold add_public_note
    rw [if_pos hcond2]
    unfold appendTo
    rw [hentry]
    rw [if_pos (by rfl), pushUnique_absent_nil _ _ _ hpub]
    show Obj.get (b.record ++ _) _ = _
    rw [Obj.get_append_none _ _ _ hpub, Obj.get_single_self]

/-- Witness for C6 (amended): concrete note calls on a fresh builder. -/
theorem spec_C6_witness :
    (Obj.get (add_private_note (mkBuilder Option.none Value.none)
        (Value.str "n") (Value.str "x")).record "_private_notes"
      = some (Value.list [Value.dict
          [("source", Value.str "x"), ("value", Value.str "n")]]))
    ∧ Obj.hasKey (add_private_note (mkBuilder Option.none Value.none)
        (Value.str "n") (Value.str "x")).record "private_notes" = false
    ∧ (Obj.get (add_public_note (mkBuilder Option.none Value.none)
        (Value.str "n") (Value.str "x")).record "public_notes"
      = some (Value.list [Value.dict
          [("value", Value.str "n"), ("source", Value.str "x")]])) :=
  spec_C6_note_field_names (mkBuilder Option.none Value.none) "n" "x"
    (by decide) (by decide) (by rfl) (by rfl) (by rfl)

/-! ### Claim C7 -/

theorem titleEntry_plain (src : Value) (A : String) (hA : A ≠ "") :
    titleEntry src (Value.str A) Value.none Value.none
      = Value.dict (if truthy src = true then [("title", Value.str A), ("source", src)]
          else [("title", Value.str A)]) := by
  have hsA : stripArg (Value.str A) = Value.str A := by simp [stripArg, isEmptyVal, hA]
  show Value.dict (sourcedDict src Value.none [("title", stripArg (Value.str A))]) = _
  rw [hsA]
  unfold sourcedDict
  rw [if_neg (by decide)]
  by_cases hs : truthy src = true
  · rw [if_pos hs, if_pos hs]
    simp [Obj.set]
  · rw [if_neg hs, if_neg hs]

theorem titleEntry_plain_nonempty (src : Value) (A : String) (hA : A ≠ "") :
    isEmptyVal (titleEntry src (Value.str A) Value.none Value.none) = false := by
  rw [titleEntry_plain src A hA]
  by_cases hs : truthy src = true
  · rw [if_pos hs]
    rfl
  · rw [if_neg hs]
    rfl

theorem titleEntry_plain_ne (src : Value) (A B : String) (hA : A ≠ "") (hB : B ≠ "")
    (hAB : A ≠ B) :
    pyEq (titleEntry src (Value.str A) Value.none Value.none)
         (titleEntry src (Value.str B) Value.none Value.none) = false := by
  rw [titleEntry_plain src A hA, titleEntry_plain src B hB]
  have h : (A == B) = false := by simpa using hAB
  by_cases hs : truthy src = true
  · rw [if_pos hs, if_pos hs]
    simp [pyEq, pyEqSub, pyEqFind, pyEq_refl, h]
  · rw [if_neg hs, if_neg hs]
    simp [pyEq, pyEqSub, pyEqFind, h]

theorem add_title_step (b : Builder) (t : String) (ht : t ≠ "") :
    add_title b (Value.str t) Value.none Value.none
      = ⟨pushUnique b.record "titles"
          (titleEntry b.source (Value.str t) Value.none Value.none) [], b.source⟩ := by
  have hcond : hasMeaningful
      [("title", Value.str t), ("subtitle", Value.none), ("source", Value.none)] = true :=
    hasMeaningful_of_mem (List.mem_cons_self _ _) (by simp [isEmptyVal, ht]) (by simp)
  unfold add_title
  rw [if_pos hcond]
  unfold appendTo
  rw [if_pos (titleEntry_plain_nonempty b.source t ht)]

/-- C7: repeatable fields preserve insertion order.  On a record without a
`titles` field, `add_title A` then `add_title B` (distinct non-empty
titles, no subtitle or call-site source) yields exactly the two
corresponding entries in that order; in general a new non-duplicate title
entry is appended at the end of the existing sequence. -/
theorem spec_C7_order_preservation :
    (∀ (b : Builder) (A B : String), A ≠ "" → B ≠ "" → A ≠ B →
      Obj.get b.record "titles" = Option.none →
      Obj.get (add_title (add_title b (Value.str A) Value.none Value.none)
          (Value.str B) Value.none Value.none).record "titles"
        = some (Value.list [titleEntry b.source (Value.str A) Value.none Value.none,
            titleEntry b.source (Value.str B) Value.none Value.none]))
  ∧ (∀ (b : Builder) (t : String) (xs : List Value), t ≠ "" →
      Obj.get b.record "titles" = some (Value.list xs) →
      (xs.any fun x =>
        pyEq x (titleEntry b.source (Value.str t) Value.none Value.none)) = false →
      Obj.get (add_title b (Value.str t) Value.none Value.none).record "titles"
        = some (Value.list
            (xs ++ [titleEntry b.source (Value.str t) Value.none Value.none]))) := by
  constructor
  · intro b A B hA hB hAB hfield
    rw [add_title_step b A hA, pushUnique_absent_nil _ _ _ hfield]
    rw [add_title_step _ B hB]
    have hget1 : Obj.get (b.record ++ [("titles", Value.list
        [titleEntry b.source (Value.str A) Value.none Value.none])]) "titles"
        = some (Value.list [titleEntry b.source (Value.str A) Value.none Value.none]) := by
      rw [Obj.get_append_none _ _ _ hfield, Obj.get_single_self]
    show Obj.get (pushUnique
      (b.record ++ [("titles", Value.list
        [titleEntry b.source (Value.str A) Value.none Value.none])])
      "titles" (titleEntry b.source (Value.str B) Value.none Value.none) []) "titles" = _
    rw [pushUnique_present _ _ _ _ _ hget1]
    rw [if_neg (by simp [titleEntry_plain_ne b.source A B hA hB hAB])]
    rw [Obj.get_set_self]
    rfl
  · intro b t xs ht hfield hnotmem
    rw [add_title_step b t ht]
    show Obj.get (pushUnique b.record "titles"
      (titleEntry b.source (Value.str t) Value.none Value.none) []) "titles" = _
    rw [pushUnique_present _ _ _ _ _ hfield, if_neg (by simp [hnotmem])]
    rw [Obj.get_set_self]

/-- Witness for C7: two distinct titles on a fresh builder come out in
insertion order. -/
theorem spec_C7_witness :
    Obj.get (add_title (add_title (mkBuilder Option.none Value.none)
        (Value.str "A") Value.none Value.none)
        (Value.str "B") Value.none Value.none).record "titles"
      = some (Value.list
          [titleEntry Value.none (Value.str "A") Value.none Value.none,
           titleEntry Value.none (Value.str "B") Value.none Value.none]) :=
  spec_C7_order_preservation.1 (mkBuilder Option.none Value.none) "A" "B"
    (by decide) (by decide) (by decide) (by rfl)

/-! ### Claim C8 -/

/-- C8: `set_core()` with no argument writes `core = True` (the Python
parameter default `core=True`); an explicit flag is written as given,
overwriting any previous value.  It is the only `set_*` operation with a
non-`None` implicit default: `set_cnum`, `set_opening_date` and
`set_closing_date` default to `None` and are no-ops there, while
`set_short_description`'s `value` parameter is required and has no default
at all. -/
theorem spec_C8_set_core_default :
    (∀ b, Obj.get (set_core_default b).record "core" = some (Value.bool true))
  ∧ (∀ b f, Obj.get (set_core b (Value.bool f)).record "core" = some (Value.bool f))
  ∧ (∀ b, set_cnum b Value.none = b)
  ∧ (∀ nd b, set_opening_date nd b Value.none = b)
  ∧ (∀ nd b, set_closing_date nd b Value.none = b) := by
  refine ⟨?_, ?_, fun b => rfl, fun nd b => rfl, fun nd b => rfl⟩
  · intro b
    show Obj.get (Obj.set b.record "core" (Value.bool true)) "core" = _
    rw [Obj.get_set_self]
  · intro b f
    show Obj.get (Obj.set b.record "core" (Value.bool f)) "core" = _
    rw [Obj.get_set_self]

/-! ### Claim C9 -/

/-- Counterexample to C9 as stated (which quantifies over *every* string
`s`): with `s = ""` the string form is stripped as empty by the decorator
(the entry gets no `record` key at all) while the mapping form
`{'$ref': ''}` is kept, so the two calls produce two distinct entries
instead of one. -/
theorem spec_C9_counterexample :
    (Obj.get (add_contact (add_contact (mkBuilder Option.none Value.none)
        (Value.str "X") Value.none Value.none (Value.str ""))
        (Value.str "X") Value.none Value.none
        (Value.dict [("$ref", Value.str "")])).record "contact_details"
      = some (Value.list [Value.dict [("name", Value.str "X")],
          Value.dict [("name", Value.str "X"),
            ("record", Value.dict [("$ref", Value.str "")])]]))
  ∧ pyEq (Value.dict [("name", Value.str "X")])
        (Value.dict [("name", Value.str "X"),
          ("record", Value.dict [("$ref", Value.str "")])]) = false := by
  constructor
  · simp [add_contact, appendTo, pushUnique, ensureListField, stripEmpty,
      normalizeRecordRef, hasMeaningful, stripArg, isEmptyVal, Obj.get, Obj.set,
      Obj.hasKey, mkBuilder, pyEq, pyEqSub, pyEqFind]
  · simp [pyEq]

theorem Obj.get_filter_none (l : Obj) (k : String) (p : String × Value → Bool)
    (hl : ∀ q ∈ l, q.1 ≠ k) : Obj.get (l.filter p) k = Option.none := by
  induction l with
  | nil => rfl
  | cons q rest ih =>
      obtain ⟨k1, v1⟩ := q
      have hk1 : k1 ≠ k := hl _ (List.mem_cons_self _ _)
      have ih' := ih (fun q hq => hl q (List.mem_cons_of_mem _ hq))
      rw [List.filter_cons]
      by_cases hq : p (k1, v1) = true
      · simp only [hq, if_true]
        simpa [Obj.get, hk1] using ih'
      · simp only [hq, Bool.false_eq_true, if_false]
        exact ih'

theorem stripEmpty_append_kept (l : Obj) (k : String) (w : Value)
    (hw : isEmptyVal w = false) :
    stripEmpty (l ++ [(k, w)]) = stripEmpty l ++ [(k, w)] := by
  unfold stripEmpty
  rw [List.filter_append]
  simp [hw]

/-- The `add_contact` candidate entries built for a non-empty string
`record` and for the corresponding `{'$ref': ...}` mapping are identical:
normalization happens before the membership test. -/
theorem contact_candidates_eq (n e c : Value) (s : String) (hs : s ≠ "") :
    normalizeRecordRef (stripEmpty [("name", stripArg n), ("email", stripArg e),
      ("curated_relation", stripArg c), ("record", stripArg (Value.str s))])
  = normalizeRecordRef (stripEmpty [("name", stripArg n), ("email", stripArg e),
      ("curated_relation", stripArg c),
      ("record", stripArg (Value.dict [("$ref", Value.str s)]))]) := by
  have hsne : isEmptyVal (Value.str s) = false := by simp [isEmptyVal, hs]
  have h1 : stripArg (Value.str s) = Value.str s := by simp [stripArg, hsne]
  have h2 : stripArg (Value.dict [("$ref", Value.str s)])
      = Value.dict [("$ref", Value.str s)] := by simp [stripArg, isEmptyVal]
  rw [h1, h2]
  have hsplit1 : ([("name", stripArg n), ("email", stripArg e),
      ("curated_relation", stripArg c), ("record", Value.str s)] : Obj)
    = [("name", stripArg n), ("email", stripArg e), ("curated_relation", stripArg c)]
      ++ [("record", Value.str s)] := rfl
  have hsplit2 : ([("name", stripArg n), ("email", stripArg e),
      ("curated_relation", stripArg c), ("record", Value.dict [("$ref", Value.str s)])] : Obj)
    = [("name", stripArg n), ("email", stripArg e), ("curated_relation", stripArg c)]
      ++ [("record", Value.dict [("$ref", Value.str s)])] := rfl
  have hP : Obj.get (stripEmpty [("name", stripArg n), ("email", stripArg e),
      ("curated_relation", stripArg c)]) "record" = Option.none := by
    refine Obj.get_filter_none _ "record" _ ?_
    intro q hq
    simp only [List.mem_cons, List.not_mem_nil, or_false] at hq
    rcases hq with rfl | rfl | rfl <;> simp
  rw [hsplit1, hsplit2, stripEmpty_append_kept _ _ _ hsne,
    stripEmpty_append_kept _ _ _ (by rfl)]
  have hget1 : Obj.get (stripEmpty [("name", stripArg n), ("email", stripArg e),
      ("curated_relation", stripArg c)] ++ [("record", Value.str s)]) "record"
      = some (Value.str s) := by
    rw [Obj.get_append_none _ _ _ hP, Obj.get_single_self]
  have hget2 : Obj.get (stripEmpty [("name", stripArg n), ("email", stripArg e),
      ("curated_relation", stripArg c)] ++ [("record", Value.dict [("$ref", Value.str s)])])
      "record" = some (Value.dict [("$ref", Value.str s)]) := by
    rw [Obj.get_append_none _ _ _ hP, Obj.get_single_self]
  have hlhs : normalizeRecordRef (stripEmpty [("name", stripArg n), ("email", stripArg e),
      ("curated_relation", stripArg c)] ++ [("record", Value.str s)])
      = Obj.set (stripEmpty [("name", stripArg n), ("email", stripArg e),
          ("curated_relation", stripArg c)] ++ [("record", Value.str s)]) "record"
          (Value.dict [("$ref", Value.str s)]) := by
    unfold normalizeRecordRef
    rw [hget1]
  have hrhs : normalizeRecordRef (stripEmpty [("name", stripArg n), ("email", stripArg e),
      ("curated_relation", stripArg c)] ++ [("record", Value.dict [("$ref", Value.str s)])])
      = stripEmpty [("name", stripArg n), ("email", stripArg e),
          ("curated_relation", stripArg c)] ++ [("record", Value.dict [("$ref", Value.str s)])] := by
    unfold normalizeRecordRef
    rw [hget2]
  rw [hlhs, hrhs, Obj.set_append_absent _ _ _ _ hP]

theorem add_contact_step (b : Builder) (n e c r : Value) (hr : isEmptyVal r = false) :
    add_contact b n e c r
      = ⟨pushUnique b.record "contact_details"
          (Value.dict (normalizeRecordRef (stripEmpty [("name", stripArg n),
            ("email", stripArg e), ("curated_relation", stripArg c),
            ("record", stripArg r)]))) [], b.source⟩ := by
  have hcond : hasMeaningful
      [("name", n), ("email", e), ("curated_relation", c), ("record", r)] = true :=
    hasMeaningful_of_mem (p := ("record", r)) (by simp) hr (by simp)
  have hra : stripArg r = r := by simp [stripArg, hr]
  have hne : (stripEmpty [("name", stripArg n), ("email", stripArg e),
      ("curated_relation", stripArg c), ("record", stripArg r)]).isEmpty = false := by
    refine stripEmpty_nonempty_of (p := ("record", stripArg r)) (by simp) ?_
    rw [hra]
    exact hr
  unfold add_contact
  rw [if_pos hcond]
  unfold appendTo
  rw [if_neg (by simp [isEmptyVal]), if_pos hne]

/-- C9, amended: for every **non-empty** string `s` (the claim fails at
`s = ""`, see the counterexample), adding a contact with `record` given as
the plain string `s` and then adding it again with `record` given as the
mapping `{'$ref': s}` — or in the opposite order — leaves the builder
unchanged after the second call: the two input forms deduplicate against
each other because normalization precedes the membership test. -/
theorem spec_C9_cross_form_dedup :
    ∀ (b : Builder) (n e c : Value) (s : String), s ≠ "" →
    fieldOk b.record "contact_details" = true →
    (add_contact (add_contact b n e c (Value.str s)) n e c
        (Value.dict [("$ref", Value.str s)])
      = add_contact b n e c (Value.str s))
    ∧ (add_contact (add_contact b n e c (Value.dict [("$ref", Value.str s)])) n e c
        (Value.str s)
      = add_contact b n e c (Value.dict [("$ref", Value.str s)])) := by
  intro b n e c s hs hfo
  have hsne : isEmptyVal (Value.str s) = false := by simp [isEmptyVal, hs]
  have hdne : isEmptyVal (Value.dict [("$ref", Value.str s)]) = false := by rfl
  have hcand := contact_candidates_eq n e c s hs
  constructor
  · rw [add_contact_step b n e c (Value.str s) hsne,
      add_contact_step _ n e c (Value.dict [("$ref", Value.str s)]) hdne]
    dsimp only
    rw [← hcand, pushUnique_idem _ _ _ _ hfo]
  · rw [add_contact_step b n e c (Value.dict [("$ref", Value.str s)]) hdne,
      add_contact_step _ n e c (Value.str s) hsne]
    dsimp only
    rw [hcand, pushUnique_idem _ _ _ _ hfo]

/-- Witness for C9 (amended): both orders of the two input forms on a
fresh builder. -/
theorem spec_C9_witness :
    (add_contact (add_contact (mkBuilder Option.none Value.none)
        (Value.str "X") Value.none Value.none (Value.str "/r/1"))
        (Value.str "X") Value.none Value.none (Value.dict [("$ref", Value.str "/r/1")])
      = add_contact (mkBuilder Option.none Value.none)
        (Value.str "X") Value.none Value.none (Value.str "/r/1"))
    ∧ (add_contact (add_contact (mkBuilder Option.none Value.none)
        (Value.str "X") Value.none Value.none (Value.dict [("$ref", Value.str "/r/1")]))
        (Value.str "X") Value.none Value.none (Value.str "/r/1")
      = add_contact (mkBuilder Option.none Value.none)
        (Value.str "X") Value.none Value.none (Value.dict [("$ref", Value.str "/r/1")])) :=
  spec_C9_cross_form_dedup (mkBuilder Option.none Value.none)
    (Value.str "X") Value.none Value.none "/r/1" (by decide) (by rfl)

/-! ### Claim C10 -/

/-- C10: `add_series` attaches the `number` key only when the number is
truthy.  With a (non-empty) name, calling it with `number=0` behaves
exactly like calling it with no number at all — the zero is silently
dropped (second conjunct: on a fresh builder with default source
`submitter` the entry is `{'name': ..., 'source': 'submitter'}`, with no
`number` key).  A non-zero number is stored under `number`, and the entry
receives the builder-wide default source even though `add_series` accepts
no per-call source parameter (third conjunct). -/
theorem spec_C10_series_number_truthiness :
    (∀ (b : Builder) (n : Value), isEmptyVal n = false →
      add_series b n (Value.int 0) = add_series b n Value.none)
  ∧ (Obj.get (add_series (mkBuilder Option.none (Value.str "submitter"))
        (Value.str "S") (Value.int 0)).record "series"
      = some (Value.list [Value.dict
          [("name", Value.str "S"), ("source", Value.str "submitter")]]))
  ∧ (∀ (b : Builder) (n d : String) (k : Int), n ≠ "" → d ≠ "" → k ≠ 0 →
      b.source = Value.str d →
      Obj.get b.record "series" = Option.none →
      Obj.get (add_series b (Value.str n) (Value.int k)).record "series"
        = some (Value.list [Value.dict [("name", Value.str n),
            ("source", Value.str d), ("number", Value.int k)]])) := by
  refine ⟨?_, by rfl, ?_⟩
  · intro b n hn
    have hcond0 : hasMeaningful [("name", n), ("number", Value.int 0)] = true :=
      hasMeaningful_of_mem (List.mem_cons_self _ _) hn (by simp)
    have hcondn : hasMeaningful [("name", n), ("number", Value.none)] = true :=
      hasMeaningful_of_mem (List.mem_cons_self _ _) hn (by simp)
    unfold add_series
    rw [if_pos hcond0, if_pos hcondn]
    rfl
  · intro b n d k hn hd hk hbsrc hfield
    have hna : stripArg (Value.str n) = Value.str n := by
      simp [stripArg, isEmptyVal, hn]
    have hentry : seriesEntry b.source (Value.str n) (Value.int k)
        = Value.dict [("name", Value.str n), ("source", Value.str d),
            ("number", Value.int k)] := by
      unfold seriesEntry sourcedDict
      simp [hna, hbsrc, stripArg, isEmptyVal, truthy, hk, hd, hn, Obj.set]
    have hcond : hasMeaningful [("name", Value.str n), ("number", Value.int k)] = true :=
      hasMeaningful_of_mem (List.mem_cons_self _ _) (by simp [isEmptyVal, hn]) (by simp)
    unfold add_series
    rw [if_pos hcond]
    unfold appendTo
    rw [hentry, if_pos (by rfl), pushUnique_absent_nil _ _ _ hfield]
    show Obj.get (b.record ++ _) _ = _
    rw [Obj.get_append_none _ _ _ hfield, Obj.get_single_self]

/-- Witness for C10: `number=0` on a fresh builder equals the
number-omitted call, and a non-zero number with default source is stored
in full. -/
theorem spec_C10_witness :
    (add_series (mkBuilder Option.none (Value.str "submitter"))
        (Value.str "S") (Value.int 0)
      = add_series (mkBuilder Option.none (Value.str "submitter"))
        (Value.str "S") Value.none)
    ∧ (Obj.get (add_series (mkBuilder Option.none (Value.str "submitter"))
        (Value.str "S") (Value.int 3)).record "series"
      = some (Value.list [Value.dict [("name", Value.str "S"),
          ("source", Value.str "submitter"), ("number", Value.int 3)]])) :=
  ⟨spec_C10_series_number_truthiness.1
      (mkBuilder Option.none (Value.str "submitter")) (Value.str "S") (by rfl),
   spec_C10_series_number_truthiness.2.2
      (mkBuilder Option.none (Value.str "submitter")) "S" "submitter" 3
      (by decide) (by decide) (by decide) (by rfl) (by rfl)⟩

end InspireConferences
